import Mathlib

/-!
Verification of the clicron scheduling and execution engine.

This file gives a shallow embedding, in Lean 4, of the core data model and
operations of the clicron repository (a single-node recurring-task scheduler
written in Go), and proves or refutes the specification claims about them.

The embedded functions are translated from:
  - internal/core/types.go      (TaskStatus, RunStatus, Task, Run)
  - internal/core/cron.go       (ParseCron, NextOccurrences)
  - the scheduler               (RunTaskNow, scheduleTask's job closure,
                                 handleScheduledTrigger, launchExecution,
                                 isTaskRunning / markTaskRunning)
  - the executor                (CommandExecutor.Execute, tailBuffer.Write,
                                 newTailBuffer, sendTermination)
  - the API log reader          (readTailLines, isRunFinished)

Go strings are modelled as List Char, Go byte slices as List Nat, timestamps
as Int (an abstract totally ordered time axis), and fallible store calls as
explicit boolean success oracles.  Concurrency (claim C1) is modelled as an
explicit interleaving of the atomic micro-operations that the Go code
performs on its shared state.
-/

namespace Clicron

/-! ## Core data model (internal/core/types.go) -/

/-- TaskStatus describes the lifecycle state of a task (types.go). -/
inductive TaskStatus where
  | active
  | paused
deriving DecidableEq

/-- RunStatus describes the state of an individual execution (types.go). -/
inductive RunStatus where
  | queued
  | running
  | succeeded
  | failed
  | canceled
  | timedOut
  | skipped
deriving DecidableEq

/-- isRunFinished from the API log handler: a run is finished unless its
status is queued or running.  The non-terminal statuses are therefore
exactly queued and running. -/
def isRunFinished (s : RunStatus) : Bool :=
  match s with
  | RunStatus.queued => false
  | RunStatus.running => false
  | _ => true

/-- Task identifiers (opaque strings in Go) are modelled as naturals. -/
abbrev TaskId := Nat

/-- Run identifiers (opaque strings in Go) are modelled as naturals. -/
abbrev RunId := Nat

/-- The fields of core.Task that the verified operations consult. -/
structure Task where
  id : TaskId
  status : TaskStatus
deriving DecidableEq

/-- The fields of core.Run that the scheduler paths write (types.go).
startedAt, endedAt, exitCode and error are modelled separately in the
executor's store image. -/
structure Run where
  id : RunId
  taskId : TaskId
  status : RunStatus
  scheduledAt : Int
deriving DecidableEq

/-! ## Run log tail read (readTailLines, API log handler)

Go strings.Split(s, "\x7bnewline\x7d") for the one-character separator is
translated as splitLines on List Char; strings.Join with separator
newline is List.intercalate with a one-character list. -/

/-- strings.Split(data, newline): splits at every newline character; a
trailing newline yields a final empty segment, and the empty string yields
one empty segment, exactly as in Go. -/
def splitLines : List Char → List (List Char)
  | [] => [[]]
  | c :: rest =>
    match splitLines rest with
    | [] => [[]]
    | l :: ls => if c = '\n' then [] :: l :: ls else (c :: l) :: ls

/-- strings.Join(lines, newline). -/
def joinLines (lines : List (List Char)) : List Char :=
  List.intercalate ['\n'] lines

/-- readTailLines from the API log handler: returns the data unchanged when
tail is not positive, otherwise keeps only the last tail elements of the
newline split and re-joins them with newlines. -/
def readTailLines (data : List Char) (tail : Int) : List Char :=
  if tail ≤ 0 then data
  else
    let lines := splitLines data
    let lines :=
      if (lines.length : Int) > tail then lines.drop (lines.length - tail.toNat)
      else lines
    joinLines lines

/-- Spec-side notion of the newline-delimited lines of a text: a trailing
newline terminates the final line instead of opening an empty one, and the
empty text has no lines.  Used to compare readTailLines against the
specification's wording; it is NOT part of the Go code. -/
def specLines (data : List Char) : List (List Char) :=
  if data = [] then []
  else if data.getLast? = some '\n' then (splitLines data).dropLast
  else splitLines data

/-- The last n elements of a list (idiom lines[len(lines)-n:] of the Go
code, for n at most the length). -/
def lastN (n : Nat) (l : List α) : List α :=
  l.drop (l.length - n)

/-! ## Cron expression engine (internal/core/cron.go) -/

/-- The whitespace test used by Go strings.TrimSpace (unicode.IsSpace),
restricted to the code points it recognises in Latin-1; the theorems about
ParseCron do not depend on the exact character class. -/
def goIsSpace (c : Char) : Bool :=
  c = ' ' ∨ c = '\t' ∨ c = '\n' ∨ (c = Char.ofNat 11) ∨ (c = Char.ofNat 12) ∨
    c = '\r' ∨ (c = Char.ofNat 133) ∨ (c = Char.ofNat 160)

/-- strings.TrimSpace: drop whitespace from both ends. -/
def trimSpace (s : List Char) : List Char :=
  ((s.dropWhile goIsSpace).reverse.dropWhile goIsSpace).reverse

/-- ParseCron from cron.go.  The underlying third-party five-field parser
(robfig cron, not part of this repository) is passed in as libParse; the
code first rejects any expression whose trimmed form begins with the at
sign, and otherwise defers to the library, wrapping its errors. -/
def ParseCron (libParse : List Char → Except (List Char) σ)
    (expr : List Char) : Except (List Char) σ :=
  if (trimSpace expr).head? = some '@' then
    Except.error ("only 5-field cron expressions are supported".toList)
  else
    match libParse expr with
    | Except.error e => Except.error ("invalid cron expression: ".toList ++ e)
    | Except.ok s => Except.ok s

/-- NextOccurrences from cron.go: starting from base, repeatedly applies
the schedule's Next function, collecting n results.  The schedule is its
Next function (the only operation the robfig cron Schedule interface has);
its library contract, that Next returns an activation time strictly later
than its argument, is taken as a hypothesis in the theorems. -/
def NextOccurrences (next : Int → Int) (base : Int) (n : Nat) : List Int :=
  match n with
  | 0 => []
  | Nat.succ m =>
    let nx := next base
    nx :: NextOccurrences next nx m

/-! ## Bounded in-memory output tail (tailBuffer, executor file) -/

/-- newTailBuffer: a non-positive requested capacity falls back to 4096.
Returns the effective capacity. -/
def newTailBuffer (capacity : Int) : Nat :=
  if capacity ≤ 0 then 4096 else capacity.toNat

/-- tailBuffer.Write, translated byte for byte from the executor file.
State is the byte list buf (bytes as naturals); cap is the capacity.
Returns the reported write count together with the new buffer. -/
def tailBufferWrite (cap : Nat) (buf : List Nat) (p : List Nat) : Nat × List Nat :=
  if p.length ≥ cap then
    (p.length, p.drop (p.length - cap))
  else
    let need := p.length
    let buf :=
      if buf.length + need > cap then
        let dropped := buf.length + need - cap
        if dropped ≥ buf.length then [] else buf.drop dropped
      else buf
    (p.length, buf ++ p)

/-- The buffer contents after a sequence of writes, starting from the empty
buffer produced by newTailBuffer. -/
def tailBufferWriteAll (cap : Nat) (ps : List (List Nat)) : List Nat :=
  ps.foldl (fun buf p => (tailBufferWrite cap buf p).2) []

/-! ## Process runner (CommandExecutor.Execute, executor file)

Execute interacts with the store, the filesystem and the subprocess.  Those
effects are modelled by an oracle recording the outcome of each external
call, and by an image of the persisted run record that the store writes
evolve. -/

/-- The error cmd.Wait returns: either an ExitError carrying the exit code
(errors.As succeeds) or some other error; msg is the Go error string. -/
inductive WaitErr where
  | exit (code : Int) (msg : List Char)
  | other (msg : List Char)
deriving DecidableEq

/-- Outcomes of the external calls Execute makes, in program order.
startErr is the error of cmd.Start, waitErr the error of cmd.Wait (none
means a clean zero exit), timeoutFired whether the watchdog callback ran
before Wait returned.  The watchdog is armed only after a successful
Start, so timeoutFired is consulted only on that branch. -/
structure ExecEnv where
  ensureDirOk : Bool
  openLogOk : Bool
  markStartedOk : Bool
  updateScheduleOk : Bool
  startErr : Option (List Char)
  timeoutFired : Bool
  waitErr : Option WaitErr
  markCompletedOk : Bool
deriving DecidableEq

/-- Image of the persisted run record: the columns the store writes for a
run (part of the runs table). -/
structure RunRecord where
  status : RunStatus
  startedAt : Option Int
  endedAt : Option Int
  exitCode : Option Int
  errMsg : Option (List Char)
deriving DecidableEq

/-- Store.MarkRunStarted: sets status to running and records the start
time. -/
def markRunStarted (r : RunRecord) (t : Int) : RunRecord :=
  { r with status := RunStatus.running, startedAt := some t }

/-- Store.MarkRunCompleted: sets the terminal status, end time, exit code
and error message. -/
def markRunCompleted (r : RunRecord) (st : RunStatus) (t : Int)
    (code : Option Int) (msg : Option (List Char)) : RunRecord :=
  { r with status := st, endedAt := some t, exitCode := code, errMsg := msg }

/-- The terminal-status computation at the end of Execute (the
timeoutTriggered / waitErr case split), returning status, exit code and
error message exactly as the code assembles them before the final
MarkRunCompleted. -/
def finalOutcome (timeoutFired : Bool) (waitErr : Option WaitErr) :
    RunStatus × Option Int × Option (List Char) :=
  if timeoutFired then
    (RunStatus.timedOut, none, some "run timed out".toList)
  else
    match waitErr with
    | none => (RunStatus.succeeded, some 0, none)
    | some (WaitErr.exit code msg) => (RunStatus.failed, some code, some msg)
    | some (WaitErr.other msg) => (RunStatus.failed, none, some msg)

/-- CommandExecutor.Execute, control flow translated from the executor
file: ensure the log directory, open the log file, mark the run started,
start the command (recording a failed completion if Start errors), wait,
then persist the terminal outcome.  startedAt and endedAt are the wall
clock values read at the corresponding points.  Returns Execute's error
result paired with the final persisted run record. -/
def ExecuteRun (env : ExecEnv) (startedAt endedAt : Int) (r : RunRecord) :
    Except (List Char) Unit × RunRecord :=
  if ¬env.ensureDirOk then
    (Except.error "ensure run log dir".toList, r)
  else if ¬env.openLogOk then
    (Except.error "open log file".toList, r)
  else if ¬env.markStartedOk then
    (Except.error "mark run started".toList, r)
  else
    let r := markRunStarted r startedAt
    match env.startErr with
    | some m =>
      -- the MarkRunCompleted return value is ignored on this path
      let r :=
        if env.markCompletedOk then
          markRunCompleted r RunStatus.failed endedAt none
            (some ("failed to start command: ".toList ++ m))
        else r
      (Except.error ("start command: ".toList ++ m), r)
    | none =>
      let (st, code, msg) := finalOutcome env.timeoutFired env.waitErr
      if env.markCompletedOk then
        (Except.ok (), markRunCompleted r st endedAt code msg)
      else
        (Except.error "mark run completed".toList, r)

/-! ## Timeout watchdog timing (executor file, watchdog and killTimer)

A timed abstraction of the two chained time.AfterFunc timers.  Time is a
natural number of seconds measured from process start.  exit is the time
at which the process would stop on its own (none: never); D is the
configured timeout in seconds (armed only when positive); the grace
period before the force kill is the fixed constant 5.  timer.Stop at
process exit cancels any timer that has not fired strictly before the
exit instant (the race at exact simultaneity is resolved in favour of
cancellation; the theorems only use strict orderings). -/

/-- Whether the process is still alive (has not exited on its own) at
time t. -/
def aliveAt (exit : Option Nat) (t : Nat) : Bool :=
  match exit with
  | none => true
  | some e => t < e

/-- The instant the watchdog callback runs and sendTermination is called:
at D, provided the process has not already exited (cmd.Wait returning
stops the watchdog first). -/
def termFiresAt (D : Nat) (exit : Option Nat) : Option Nat :=
  if aliveAt exit D then some D else none

/-- The instant the force-kill callback runs: 5 seconds after the
watchdog fired, provided the watchdog fired and the process is still
alive then (killTimer is armed inside the watchdog callback and stopped
when Wait returns). -/
def killFiresAt (D : Nat) (exit : Option Nat) : Option Nat :=
  if aliveAt exit D ∧ aliveAt exit (D + 5) then some (D + 5) else none

/-- The termination action sendTermination performs, and the force kill:
which signal is delivered and whether it targets the whole process group
or only the spawned process. -/
inductive Sig where
  | term
  | kill
deriving DecidableEq

/-- A delivered signal: sig is the signal, wholeGroup whether the target
is the process group (negative pid) rather than the single process. -/
structure TermAction where
  sig : Sig
  wholeGroup : Bool
deriving DecidableEq

/-- The platforms the executor distinguishes (runtime.GOOS). -/
inductive Platform where
  | unix
  | windows
deriving DecidableEq

/-- sendTermination from the executor file: on Windows it calls
process.Kill directly; on Unix it calls process.Signal(SIGTERM).  Both
calls address cmd.Process itself — the code sets no process group
(no SysProcAttr/Setpgid) and signals no negative pid. -/
def sendTermination (p : Platform) : TermAction :=
  match p with
  | Platform.windows => { sig := Sig.kill, wholeGroup := false }
  | Platform.unix => { sig := Sig.term, wholeGroup := false }

/-! ## Scheduler (scheduler file: RunTaskNow, scheduleTask's job closure,
handleScheduledTrigger, launchExecution)

The scheduler's shared state: the persisted run rows, the persisted
next_run_at column per task, the in-memory running-set (the keys of the
sync.Map), and the set of execution goroutines launched.  Store writes
that can fail take a boolean success oracle. -/

structure SchedState where
  runs : List Run
  nextRunAt : List (TaskId × Int)
  running : List TaskId
  dispatched : List (TaskId × RunId)
deriving DecidableEq

/-- Scheduler.isTaskRunning: membership in the running-set. -/
def isTaskRunning (st : SchedState) (id : TaskId) : Bool :=
  st.running.contains id

/-- Scheduler.markTaskRunning: insert into or delete from the
running-set. -/
def markTaskRunning (st : SchedState) (id : TaskId) (b : Bool) : SchedState :=
  if b then
    { st with running := if st.running.contains id then st.running else id :: st.running }
  else
    { st with running := st.running.filter (fun x => x ≠ id) }

/-- Store.InsertRun: append a run row. -/
def insertRun (st : SchedState) (r : Run) : SchedState :=
  { st with runs := st.runs ++ [r] }

/-- Store.UpdateTaskNextRun: set the task's next_run_at column. -/
def updateTaskNextRun (st : SchedState) (id : TaskId) (t : Int) : SchedState :=
  { st with nextRunAt := (id, t) :: st.nextRunAt.filter (fun x => x.1 ≠ id) }

/-- The persisted next_run_at of a task. -/
def nextRunOf (st : SchedState) (id : TaskId) : Option Int :=
  (st.nextRunAt.lookup id)

/-- Scheduler.launchExecution: mark the task present in the running-set
and spawn the execution goroutine (recorded in dispatched; the goroutine
body itself belongs to the executor model). -/
def launchExecution (st : SchedState) (task : Task) (run : Run) : SchedState :=
  let st := markTaskRunning st task.id true
  { st with dispatched := st.dispatched ++ [(task.id, run.id)] }

/-- Scheduler.RunTaskNow: refuse when the task is in the running-set;
otherwise insert a queued run stamped with the current time and, when the
insert succeeds, launch the execution.  now is time.Now, newId the
generated run ID, insertOk the store-insert outcome. -/
def RunTaskNow (st : SchedState) (task : Task) (now : Int) (newId : RunId)
    (insertOk : Bool) : Except (List Char) Run × SchedState :=
  if isTaskRunning st task.id then
    (Except.error "task is already running".toList, st)
  else
    let run : Run := { id := newId, taskId := task.id,
                       status := RunStatus.queued, scheduledAt := now }
    if insertOk then
      (Except.ok run, launchExecution (insertRun st run) task run)
    else
      (Except.error "insert failed".toList, st)

/-- Scheduler.handleScheduledTrigger: re-read the task (getTask is the
store result, none on error), no-op unless it is active; when the task is
in the running-set record a skipped run stamped with the trigger time,
otherwise insert a queued run and launch the execution. -/
def handleScheduledTrigger (st : SchedState) (scheduledAt : Int)
    (getTask : Option Task) (newId : RunId) (insertOk : Bool) : SchedState :=
  match getTask with
  | none => st
  | some task =>
    if task.status ≠ TaskStatus.active then st
    else if isTaskRunning st task.id then
      let run : Run := { id := newId, taskId := task.id,
                         status := RunStatus.skipped, scheduledAt := scheduledAt }
      if insertOk then insertRun st run else st
    else
      let run : Run := { id := newId, taskId := task.id,
                         status := RunStatus.queued, scheduledAt := scheduledAt }
      if insertOk then launchExecution (insertRun st run) task run else st

/-- The job closure registered by Scheduler.scheduleTask, as the cron
engine invokes it on a fire.  entry models the cron entry looked up by
getEntryID: none when the task was unscheduled meanwhile, otherwise the
pair of the entry's Prev (none in place of the zero time) and Next
fields.  now is time.Now, used when Prev is zero.  The next_run_at column
is updated before the trigger is handled, exactly as in the code. -/
def jobFire (st : SchedState) (taskId : TaskId)
    (entry : Option (Option Int × Option Int)) (now : Int)
    (getTask : Option Task) (newId : RunId) (insertOk updateOk : Bool) :
    SchedState :=
  match entry with
  | none => st
  | some (prevOpt, nextOpt) =>
    let scheduledAt := prevOpt.getD now
    let st :=
      match nextOpt with
      | some nx => if updateOk then updateTaskNextRun st taskId nx else st
      | none => st
    handleScheduledTrigger st scheduledAt getTask newId insertOk

/-! ## Interleaved dispatch (claim C1)

The non-reentrancy check and the running-set update are separate atomic
operations in the Go code: isTaskRunning is a sync.Map Load, InsertRun a
database write, markTaskRunning a sync.Map Store, with no lock spanning
them.  Each dispatch path is therefore modelled as a sequence of atomic
micro-operations on the shared state, and executions as arbitrary
interleavings of the two paths.  Each agent has a program counter and
remembers the running-set value it read at its check (the code branches
on that stale read). -/

structure AgentState where
  pc : Nat
  sawBusy : Bool
deriving DecidableEq

/-- One micro-step of the RunTaskNow path for the given task: pc 0 reads
the running-set (the isTaskRunning call); pc 1, reached only when the
check saw idle, performs Store.InsertRun of the queued run; pc 2 performs
launchExecution's markTaskRunning and goroutine spawn; pc 3 is done (on a
busy check the path jumps straight to done, returning the error). -/
def stepManual (task : Task) (now : Int) (newId : RunId)
    (st : SchedState) (a : AgentState) : SchedState × AgentState :=
  match a.pc with
  | 0 =>
    let busy := isTaskRunning st task.id
    (st, { pc := if busy then 3 else 1, sawBusy := busy })
  | 1 =>
    let run : Run := { id := newId, taskId := task.id,
                       status := RunStatus.queued, scheduledAt := now }
    (insertRun st run, { a with pc := 2 })
  | 2 =>
    let run : Run := { id := newId, taskId := task.id,
                       status := RunStatus.queued, scheduledAt := now }
    (launchExecution st task run, { a with pc := 3 })
  | _ => (st, a)

/-- One micro-step of the scheduled-trigger path (after the GetTask
re-read returned the active task): pc 0 reads the running-set; pc 1
inserts the skipped run when the check saw busy (then done), or the
queued run otherwise; pc 2 performs launchExecution.  The insert uses the
state current at its own step, as the database write does. -/
def stepTrigger (task : Task) (scheduledAt : Int) (newId : RunId)
    (st : SchedState) (a : AgentState) : SchedState × AgentState :=
  match a.pc with
  | 0 =>
    let busy := isTaskRunning st task.id
    (st, { pc := 1, sawBusy := busy })
  | 1 =>
    if a.sawBusy then
      let run : Run := { id := newId, taskId := task.id,
                         status := RunStatus.skipped, scheduledAt := scheduledAt }
      (insertRun st run, { a with pc := 3 })
    else
      let run : Run := { id := newId, taskId := task.id,
                         status := RunStatus.queued, scheduledAt := scheduledAt }
      (insertRun st run, { a with pc := 2 })
  | 2 =>
    let run : Run := { id := newId, taskId := task.id,
                       status := RunStatus.queued, scheduledAt := scheduledAt }
    (launchExecution st task run, { a with pc := 3 })
  | _ => (st, a)

/-- Joint state of the shared scheduler state and the two agents: one
RunTaskNow call and one scheduled-trigger fire for the same task. -/
structure InterleavedState where
  shared : SchedState
  manual : AgentState
  trigger : AgentState
deriving DecidableEq

/-- Execute an interleaving: true selects a micro-step of the manual
path, false one of the trigger path. -/
def execTrace (task : Task) (now scheduledAt : Int) (manualId triggerId : RunId)
    (sched : List Bool) (s : InterleavedState) : InterleavedState :=
  match sched with
  | [] => s
  | b :: rest =>
    let s' :=
      if b then
        let (sh, a) := stepManual task now manualId s.shared s.manual
        { s with shared := sh, manual := a }
      else
        let (sh, a) := stepTrigger task scheduledAt triggerId s.shared s.trigger
        { s with shared := sh, trigger := a }
    execTrace task now scheduledAt manualId triggerId rest s'

/-- The number of non-terminal (queued or running) run rows a task owns. -/
def countNonTerminal (runs : List Run) (id : TaskId) : Nat :=
  (runs.filter (fun r => r.taskId = id ∧ isRunFinished r.status = false)).length

/-! ## Theorems -/

/-- C9: every cron expression whose whitespace-trimmed form begins with
the at sign is rejected by ParseCron with an error, whatever the
underlying five-field library parser would have said; no schedule is ever
produced for such an expression. -/
theorem C9_parse_rejects_at_macro {σ : Type}
    (libParse : List Char → Except (List Char) σ) (expr : List Char)
    (h : (trimSpace expr).head? = some '@') :
    ParseCron libParse expr =
      Except.error ("only 5-field cron expressions are supported".toList) := by
  simp [ParseCron, h]

/-- Witness for C9 at the concrete expression from the spec's scenario,
against a library parser that would have accepted it. -/
theorem C9_parse_rejects_at_macro_witness :
    (trimSpace (" @daily".toList)).head? = some '@' ∧
    ParseCron (fun _ => Except.ok ()) (" @daily".toList) =
      Except.error ("only 5-field cron expressions are supported".toList) :=
  ⟨by decide, C9_parse_rejects_at_macro (fun _ => Except.ok ()) (" @daily".toList) (by decide)⟩

/-- The length of the occurrence list is exactly the requested count. -/
theorem nextOccurrences_length (next : Int → Int) (base : Int) (n : Nat) :
    (NextOccurrences next base n).length = n := by
  induction n generalizing base with
  | zero => simp [NextOccurrences]
  | succ m ih => simp [NextOccurrences, ih]

/-- Every returned occurrence is strictly after the base, given the
library contract that Next is strictly progressive. -/
theorem nextOccurrences_gt_base (next : Int → Int) (hnext : ∀ t, t < next t)
    (base : Int) (n : Nat) :
    ∀ x ∈ NextOccurrences next base n, base < x := by
  induction n generalizing base with
  | zero => simp [NextOccurrences]
  | succ m ih =>
    intro x hx
    simp only [NextOccurrences, List.mem_cons] at hx
    rcases hx with rfl | hx
    · exact hnext base
    · exact lt_trans (hnext base) (ih (next base) x hx)

/-- The occurrence list forms a strictly increasing chain from the base. -/
theorem nextOccurrences_chain (next : Int → Int) (hnext : ∀ t, t < next t)
    (base : Int) (n : Nat) :
    List.Chain (· < ·) base (NextOccurrences next base n) := by
  induction n generalizing base with
  | zero => simp [NextOccurrences]
  | succ m ih =>
    exact List.Chain.cons (hnext base) (ih (next base))

/-- C7: for every schedule (given by its Next function, with the cron
library's contract that Next returns a time strictly later than its
argument), every base time and every count n of at least 1,
NextOccurrences returns exactly n timestamps, strictly increasing, each
strictly after the base.  The function is pure by construction: its
result depends only on (next, base, n). -/
theorem C7_nextOccurrences_strictly_increasing (next : Int → Int)
    (hnext : ∀ t, t < next t) (base : Int) (n : Nat) (_hn : 1 ≤ n) :
    (NextOccurrences next base n).length = n ∧
    List.Chain' (· < ·) (NextOccurrences next base n) ∧
    ∀ x ∈ NextOccurrences next base n, base < x := by
  refine ⟨nextOccurrences_length next base n, ?_, nextOccurrences_gt_base next hnext base n⟩
  have h := nextOccurrences_chain next hnext base n
  cases hl : NextOccurrences next base n with
  | nil => simp
  | cons a l =>
    rw [hl] at h
    cases h with
    | cons hab hchain => exact hchain

/-- Witness for C7 at the unit-step schedule, base 0, count 3. -/
theorem C7_nextOccurrences_witness :
    (NextOccurrences (fun t => t + 1) 0 3).length = 3 ∧
    List.Chain' (· < ·) (NextOccurrences (fun t => t + 1) 0 3) ∧
    ∀ x ∈ NextOccurrences (fun t => t + 1) 0 3, (0 : Int) < x :=
  C7_nextOccurrences_strictly_increasing (fun t => t + 1)
    (fun t => lt_add_one t) 0 3 (by omega)

/-- C6 counterexample: on the two-line newline-terminated content
"a<nl>b<nl>" with n = 1, readTailLines returns the empty text, not the
last line "b": the Go split treats the trailing newline as opening a
final empty segment, so the kept window of n segments is shifted by one.
This refutes the claim that the result is exactly the last n
newline-delimited lines for every content. -/
theorem C6_tail_counterexample :
    specLines ("a\nb\n".toList) = ["a".toList, "b".toList] ∧
    joinLines (lastN 1 (specLines ("a\nb\n".toList))) = "b".toList ∧
    readTailLines ("a\nb\n".toList) 1 = [] ∧
    readTailLines ("a\nb\n".toList) 1 ≠
      joinLines (lastN 1 (specLines ("a\nb\n".toList))) := by
  decide

/-- C6 amended: readTailLines returns the full text when n is not
positive; for positive n it returns the last n segments of the
newline-split of the content (a trailing newline contributing a final
empty segment), joined by newlines in their original order — which, for
content that is nonempty and does not end in a newline, is exactly the
last n newline-delimited lines. -/
theorem C6_readTailLines_amended (data : List Char) (n : Int) :
    (n ≤ 0 → readTailLines data n = data) ∧
    (0 < n → readTailLines data n = joinLines (lastN n.toNat (splitLines data))) ∧
    (0 < n → data ≠ [] → data.getLast? ≠ some '\n' →
      readTailLines data n = joinLines (lastN n.toNat (specLines data))) := by
  have h2 : 0 < n → readTailLines data n = joinLines (lastN n.toNat (splitLines data)) := by
    intro hn
    simp only [readTailLines, lastN]
    rw [if_neg (by omega)]
    by_cases h : ((splitLines data).length : Int) > n
    · rw [if_pos h]
    · rw [if_neg h]
      have hz : (splitLines data).length - n.toNat = 0 := by omega
      rw [hz, List.drop_zero]
  refine ⟨fun hn => by simp [readTailLines, hn], h2, ?_⟩
  intro hn hne hlast
  have : specLines data = splitLines data := by
    simp [specLines, hne, hlast]
  rw [this]
  exact h2 hn

/-- Witness for C6 amended, on a nonempty content without a trailing
newline. -/
theorem C6_readTailLines_amended_witness :
    readTailLines ("x\ny".toList) 1 = joinLines (lastN 1 (specLines ("x\ny".toList))) ∧
    readTailLines ("x\ny".toList) 1 = "y".toList :=
  ⟨(C6_readTailLines_amended ("x\ny".toList) 1).2.2 (by decide) (by decide) (by decide),
   by decide⟩

/-- Each write reports the full input length as written. -/
theorem tailBufferWrite_reports_length (cap : Nat) (buf p : List Nat) :
    (tailBufferWrite cap buf p).1 = p.length := by
  by_cases h : p.length ≥ cap <;> simp [tailBufferWrite, h]

/-- Writing one chunk to a buffer holding the last cap bytes of acc
yields the last cap bytes of acc ++ p. -/
theorem tailBufferWrite_suffix (cap : Nat) (acc p : List Nat) :
    (tailBufferWrite cap (lastN cap acc) p).2 = lastN cap (acc ++ p) := by
  simp only [tailBufferWrite, lastN, List.length_drop, List.length_append]
  by_cases hbig : p.length ≥ cap
  · rw [if_pos hbig, List.drop_append_eq_append_drop]
    have hnil : List.drop (acc.length + p.length - cap) acc = [] :=
      List.drop_eq_nil_of_le (by omega)
    rw [hnil, List.nil_append]
    have hidx : p.length - cap = acc.length + p.length - cap - acc.length := by omega
    rw [hidx]
  · rw [if_neg hbig]
    by_cases hover : acc.length - (acc.length - cap) + p.length > cap
    · rw [if_pos hover]
      have hnotall : ¬ (acc.length - (acc.length - cap) + p.length - cap ≥
          acc.length - (acc.length - cap)) := by omega
      rw [if_neg hnotall, List.drop_drop, List.drop_append_eq_append_drop]
      have h1 : acc.length - cap + (acc.length - (acc.length - cap) + p.length - cap)
          = acc.length + p.length - cap := by omega
      have h2 : acc.length + p.length - cap - acc.length = 0 := by omega
      rw [h1, h2, List.drop_zero]
    · rw [if_neg hover, List.drop_append_eq_append_drop]
      have h1 : acc.length - cap = acc.length + p.length - cap := by omega
      have h2 : acc.length + p.length - cap - acc.length = 0 := by omega
      rw [h2, List.drop_zero, ← h1]

/-- Folding writes preserves the last-cap-bytes invariant. -/
theorem tailBufferWriteAll_suffix_aux (cap : Nat) (ps : List (List Nat)) :
    ∀ acc : List Nat,
      ps.foldl (fun buf p => (tailBufferWrite cap buf p).2) (lastN cap acc) =
        lastN cap (acc ++ ps.flatten) := by
  induction ps with
  | nil => intro acc; simp [List.flatten]
  | cons p ps ih =>
    intro acc
    simp only [List.foldl_cons, List.flatten_cons]
    rw [tailBufferWrite_suffix, ih (acc ++ p), List.append_assoc]

/-- C10: every Write on the tail buffer reports the full input length as
written; after any finite sequence of writes starting from the empty
buffer, the contents are exactly the last min(total, cap) bytes of the
concatenation of the inputs, so the buffer never exceeds its capacity;
and the executor's buffer, built by newTailBuffer(8*1024), has capacity
8192 bytes. -/
theorem C10_tailBuffer_keeps_last_cap (cap : Nat) (ps : List (List Nat))
    (hcap : 0 < cap) :
    (∀ buf p : List Nat, (tailBufferWrite cap buf p).1 = p.length) ∧
    tailBufferWriteAll cap ps = lastN cap ps.flatten ∧
    (tailBufferWriteAll cap ps).length = min ps.flatten.length cap ∧
    (tailBufferWriteAll cap ps).length ≤ cap ∧
    newTailBuffer (8 * 1024) = 8192 := by
  have hmain : tailBufferWriteAll cap ps = lastN cap ps.flatten := by
    have h := tailBufferWriteAll_suffix_aux cap ps []
    simpa [tailBufferWriteAll, lastN] using h
  have hlen : (tailBufferWriteAll cap ps).length = min ps.flatten.length cap := by
    rw [hmain]
    simp only [lastN, List.length_drop]
    omega
  exact ⟨fun buf p => tailBufferWrite_reports_length cap buf p, hmain, hlen,
    by omega, by decide⟩

/-- Witness for C10 at capacity 8192 with two concrete writes. -/
theorem C10_tailBuffer_witness :
    (tailBufferWrite 8192 [] [1, 2, 3]).1 = 3 ∧
    tailBufferWriteAll 8192 [[1, 2, 3], [4, 5]] = [1, 2, 3, 4, 5] := by
  have h := C10_tailBuffer_keeps_last_cap 8192 [[1, 2, 3], [4, 5]] (by omega)
  refine ⟨by simpa using h.1 [] [1, 2, 3], ?_⟩
  rw [h.2.1]
  decide

/-- C3: when Execute's control-plane steps succeed, the persisted
terminal status is computed as the claim states: a fired timeout watchdog
forces timed_out regardless of the wait result; otherwise a nil wait
error yields succeeded with exit code 0; otherwise the status is failed,
with the exit code recorded exactly when the wait error carries one
(ExitError), with an error message recorded in every failed case, and
with no exit code when the subprocess could not even be started. -/
theorem C3_execute_status_computation (env : ExecEnv) (startedAt endedAt : Int)
    (r : RunRecord) (hd : env.ensureDirOk = true) (ho : env.openLogOk = true)
    (hm : env.markStartedOk = true) (hc : env.markCompletedOk = true) :
    (env.startErr = none → env.timeoutFired = true →
      (ExecuteRun env startedAt endedAt r).2.status = RunStatus.timedOut) ∧
    (env.startErr = none → env.timeoutFired = false → env.waitErr = none →
      (ExecuteRun env startedAt endedAt r).2.status = RunStatus.succeeded ∧
      (ExecuteRun env startedAt endedAt r).2.exitCode = some 0) ∧
    (∀ w, env.startErr = none → env.timeoutFired = false → env.waitErr = some w →
      (ExecuteRun env startedAt endedAt r).2.status = RunStatus.failed ∧
      (ExecuteRun env startedAt endedAt r).2.errMsg ≠ none ∧
      (∀ c m, w = WaitErr.exit c m →
        (ExecuteRun env startedAt endedAt r).2.exitCode = some c) ∧
      (∀ m, w = WaitErr.other m →
        (ExecuteRun env startedAt endedAt r).2.exitCode = none)) ∧
    (∀ m, env.startErr = some m →
      (ExecuteRun env startedAt endedAt r).2.status = RunStatus.failed ∧
      (ExecuteRun env startedAt endedAt r).2.exitCode = none ∧
      (ExecuteRun env startedAt endedAt r).2.errMsg ≠ none) := by
  refine ⟨?_, ?_, ?_, ?_⟩
  · intro hs ht
    simp [ExecuteRun, hd, ho, hm, hc, hs, ht, finalOutcome, markRunCompleted, markRunStarted]
  · intro hs ht hw
    simp [ExecuteRun, hd, ho, hm, hc, hs, ht, hw, finalOutcome, markRunCompleted, markRunStarted]
  · intro w hs ht hw
    cases w with
    | exit c m =>
      refine ⟨?_, ?_, ?_, ?_⟩
      · simp [ExecuteRun, hd, ho, hm, hc, hs, ht, hw, finalOutcome,
          markRunCompleted, markRunStarted]
      · simp [ExecuteRun, hd, ho, hm, hc, hs, ht, hw, finalOutcome,
          markRunCompleted, markRunStarted]
      · intro c' m' hcm
        cases hcm
        simp [ExecuteRun, hd, ho, hm, hc, hs, ht, hw, finalOutcome,
          markRunCompleted, markRunStarted]
      · intro m' hcm
        exact WaitErr.noConfusion hcm
    | other m =>
      refine ⟨?_, ?_, ?_, ?_⟩
      · simp [ExecuteRun, hd, ho, hm, hc, hs, ht, hw, finalOutcome,
          markRunCompleted, markRunStarted]
      · simp [ExecuteRun, hd, ho, hm, hc, hs, ht, hw, finalOutcome,
          markRunCompleted, markRunStarted]
      · intro c' m' hcm
        exact WaitErr.noConfusion hcm
      · intro m' hcm
        cases hcm
        simp [ExecuteRun, hd, ho, hm, hc, hs, ht, hw, finalOutcome,
          markRunCompleted, markRunStarted]
  · intro m hs
    simp [ExecuteRun, hd, ho, hm, hc, hs, finalOutcome, markRunCompleted, markRunStarted]

/-- Witness for C3 on the four concrete outcomes: timeout, clean exit,
non-zero exit, and start failure. -/
theorem C3_execute_status_witness :
    (ExecuteRun ⟨true, true, true, true, none, true, none, true⟩ 0 1
      ⟨RunStatus.queued, none, none, none, none⟩).2.status = RunStatus.timedOut ∧
    (ExecuteRun ⟨true, true, true, true, none, false, none, true⟩ 0 1
      ⟨RunStatus.queued, none, none, none, none⟩).2.status = RunStatus.succeeded ∧
    (ExecuteRun ⟨true, true, true, true, none, false,
        some (WaitErr.exit 2 ("exit status 2".toList)), true⟩ 0 1
      ⟨RunStatus.queued, none, none, none, none⟩).2.status = RunStatus.failed ∧
    (ExecuteRun ⟨true, true, true, true, some ("no such file".toList), false,
        none, true⟩ 0 1
      ⟨RunStatus.queued, none, none, none, none⟩).2.status = RunStatus.failed :=
  ⟨(C3_execute_status_computation _ 0 1 _ rfl rfl rfl rfl).1 rfl rfl,
   ((C3_execute_status_computation _ 0 1 _ rfl rfl rfl rfl).2.1 rfl rfl rfl).1,
   ((C3_execute_status_computation _ 0 1 _ rfl rfl rfl rfl).2.2.1
      (WaitErr.exit 2 ("exit status 2".toList)) rfl rfl rfl).1,
   ((C3_execute_status_computation _ 0 1 _ rfl rfl rfl rfl).2.2.2
      ("no such file".toList) rfl).1⟩

/-- C4 counterexample: when the log-directory creation step fails,
Execute returns early with an error and the Run record keeps its queued
status — a non-terminal status — and nothing else in the dispatch path
(launchExecution only logs the error) will ever write a terminal status
for it.  This refutes the claim that every Run reaches a terminal status
even when a control-plane step of Execute fails. -/
theorem C4_counterexample_dir_failure :
    (ExecuteRun ⟨false, true, true, true, none, false, none, true⟩ 0 1
      ⟨RunStatus.queued, none, none, none, none⟩).2.status = RunStatus.queued ∧
    isRunFinished (ExecuteRun ⟨false, true, true, true, none, false, none, true⟩ 0 1
      ⟨RunStatus.queued, none, none, none, none⟩).2.status = false ∧
    (ExecuteRun ⟨false, true, true, true, none, false, none, true⟩ 0 1
      ⟨RunStatus.queued, none, none, none, none⟩).1 =
        Except.error ("ensure run log dir".toList) :=
  ⟨rfl, rfl, rfl⟩

/-- C4 amended: a skipped Run is terminal at creation, and a dispatched
Run reaches exactly one terminal status (the single status column written
by the final MarkRunCompleted) provided Execute's control-plane steps —
log-directory creation, log-file open, the mark-started write and the
mark-completed write — succeed; when the log directory cannot be created,
Execute instead returns an error and the Run remains queued, a
non-terminal status, with no terminal record ever written. -/
theorem C4_execute_amended (env : ExecEnv) (startedAt endedAt : Int) (r : RunRecord)
    (hd : env.ensureDirOk = true) (ho : env.openLogOk = true)
    (hm : env.markStartedOk = true) (hc : env.markCompletedOk = true) :
    isRunFinished (ExecuteRun env startedAt endedAt r).2.status = true ∧
    isRunFinished RunStatus.skipped = true ∧
    (∀ env' : ExecEnv, env'.ensureDirOk = false →
      (ExecuteRun env' startedAt endedAt r).2 = r ∧
      (ExecuteRun env' startedAt endedAt r).1 =
        Except.error ("ensure run log dir".toList)) := by
  refine ⟨?_, rfl, ?_⟩
  · cases hs : env.startErr with
    | some m =>
      simp [ExecuteRun, hd, ho, hm, hc, hs, markRunCompleted, markRunStarted, isRunFinished]
    | none =>
      cases ht : env.timeoutFired with
      | true =>
        simp [ExecuteRun, hd, ho, hm, hc, hs, ht, finalOutcome,
          markRunCompleted, markRunStarted, isRunFinished]
      | false =>
        cases hw : env.waitErr with
        | none =>
          simp [ExecuteRun, hd, ho, hm, hc, hs, ht, hw, finalOutcome,
            markRunCompleted, markRunStarted, isRunFinished]
        | some w =>
          cases w <;>
            simp [ExecuteRun, hd, ho, hm, hc, hs, ht, hw, finalOutcome,
              markRunCompleted, markRunStarted, isRunFinished]
  · intro env' hfail
    constructor <;> simp [ExecuteRun, hfail]

/-- Witness for C4 amended: a clean execution ends terminal
(succeeded), and the failing-control-plane clause at a concrete
environment. -/
theorem C4_execute_amended_witness :
    isRunFinished (ExecuteRun ⟨true, true, true, true, none, false, none, true⟩ 0 1
      ⟨RunStatus.queued, none, none, none, none⟩).2.status = true ∧
    (ExecuteRun ⟨false, true, true, true, none, false, none, true⟩ 0 1
      ⟨RunStatus.queued, none, none, none, none⟩).2 =
        ⟨RunStatus.queued, none, none, none, none⟩ :=
  ⟨(C4_execute_amended ⟨true, true, true, true, none, false, none, true⟩ 0 1
      ⟨RunStatus.queued, none, none, none, none⟩ rfl rfl rfl rfl).1,
   ((C4_execute_amended ⟨true, true, true, true, none, false, none, true⟩ 0 1
      ⟨RunStatus.queued, none, none, none, none⟩ rfl rfl rfl rfl).2.2
      ⟨false, true, true, true, none, false, none, true⟩ rfl).1⟩

/-- C8 counterexample: the graceful termination the watchdog sends is
delivered to the single spawned process (os.Process.Signal on
cmd.Process), not to the process group: the executor sets no process
group on the command and never signals a negative pid.  The claim's
assertion that the graceful signal targets the process group is
therefore false. -/
theorem C8_counterexample_not_process_group :
    sendTermination Platform.unix = { sig := Sig.term, wholeGroup := false } ∧
    (sendTermination Platform.unix).wholeGroup ≠ true := by
  decide

/-- C8 amended: with a positive configured timeout D, the graceful
termination signal (SIGTERM, to the process itself) is sent exactly at
expiry D when the process is still running; the force-kill runs only at
D + 5, exactly the fixed 5-second grace period after the graceful
signal, and only when the process has still not exited by then — never
earlier; and when the process exits naturally before the watchdog fires,
neither timer fires: both are canceled and no signal is delivered. -/
theorem C8_watchdog_amended (D : Nat) (exit : Option Nat) (_hD : 0 < D) :
    (∀ t, termFiresAt D exit = some t → t = D ∧ aliveAt exit D = true) ∧
    (∀ k, killFiresAt D exit = some k →
      k = D + 5 ∧ termFiresAt D exit = some D ∧ aliveAt exit (D + 5) = true) ∧
    (∀ e, exit = some e → e < D →
      termFiresAt D exit = none ∧ killFiresAt D exit = none) ∧
    (sendTermination Platform.unix).sig = Sig.term ∧
    (sendTermination Platform.unix).wholeGroup = false := by
  refine ⟨?_, ?_, ?_, rfl, rfl⟩
  · intro t ht
    by_cases h : aliveAt exit D = true
    · simp [termFiresAt, h] at ht
      exact ⟨ht.symm, h⟩
    · simp [termFiresAt, h] at ht
  · intro k hk
    by_cases h : aliveAt exit D = true ∧ aliveAt exit (D + 5) = true
    · simp only [killFiresAt, h.1, h.2, and_self, if_true, Option.some.injEq] at hk
      refine ⟨hk.symm, ?_, h.2⟩
      simp [termFiresAt, h.1]
    · rw [killFiresAt] at hk
      rw [if_neg ?_] at hk
      · cases hk
      · intro hcontra
        exact h ⟨by simp [hcontra.1], by simp [hcontra.2]⟩
  · intro e he hlt
    have h1 : aliveAt exit D = false := by
      simp [aliveAt, he]
      omega
    constructor
    · simp [termFiresAt, h1]
    · simp [killFiresAt, h1]

/-- Witness for C8 amended: timeout 1, process exits at time 0 (before
the watchdog): both timers canceled; and with a never-exiting process the
kill fires exactly at 1 + 5 = 6. -/
theorem C8_watchdog_amended_witness :
    (termFiresAt 1 (some 0) = none ∧ killFiresAt 1 (some 0) = none) ∧
    killFiresAt 1 none = some 6 ∧
    (∀ k, killFiresAt 1 none = some k → k = 6) :=
  ⟨(C8_watchdog_amended 1 (some 0) (by omega)).2.2.1 0 rfl (by omega),
   by decide,
   fun k hk => by
     have h := ((C8_watchdog_amended 1 none (by omega)).2.1 k hk).1
     omega⟩

/-- C5: RunTaskNow on a task present in the running-set returns the
"already running" error immediately, with every piece of state — run
rows, next_run_at, running-set, launched executions — untouched; on a
task absent from the running-set (with the store insert succeeding) it
returns a Run with status queued and scheduled_at equal to the current
time, appends exactly that run row, leaves next_run_at untouched, and
dispatches the execution asynchronously (the task enters the running-set
and an execution goroutine for the run is spawned). -/
theorem C5_runTaskNow_busy_and_idle (st : SchedState) (task : Task) (now : Int)
    (newId : RunId) (insertOk : Bool) :
    (isTaskRunning st task.id = true →
      RunTaskNow st task now newId insertOk =
        (Except.error ("task is already running".toList), st)) ∧
    (isTaskRunning st task.id = false → insertOk = true →
      (RunTaskNow st task now newId insertOk).1 =
        Except.ok { id := newId, taskId := task.id,
                    status := RunStatus.queued, scheduledAt := now } ∧
      (RunTaskNow st task now newId insertOk).2.runs =
        st.runs ++ [{ id := newId, taskId := task.id,
                      status := RunStatus.queued, scheduledAt := now }] ∧
      (RunTaskNow st task now newId insertOk).2.nextRunAt = st.nextRunAt ∧
      isTaskRunning (RunTaskNow st task now newId insertOk).2 task.id = true ∧
      (RunTaskNow st task now newId insertOk).2.dispatched =
        st.dispatched ++ [(task.id, newId)]) := by
  constructor
  · intro hbusy
    simp [RunTaskNow, hbusy]
  · intro hidle hins
    subst hins
    have hmem : task.id ∉ st.running := by simpa [isTaskRunning] using hidle
    refine ⟨?_, ?_, ?_, ?_, ?_⟩ <;>
      simp [RunTaskNow, hmem, launchExecution, insertRun, markTaskRunning, isTaskRunning]

/-- Witness for C5: a busy running-set refuses, an empty one dispatches. -/
theorem C5_runTaskNow_witness :
    RunTaskNow ⟨[], [], [7], []⟩ ⟨7, TaskStatus.active⟩ 50 1 true =
      (Except.error ("task is already running".toList), ⟨[], [], [7], []⟩) ∧
    (RunTaskNow ⟨[], [], [], []⟩ ⟨7, TaskStatus.active⟩ 50 1 true).1 =
      Except.ok { id := 1, taskId := 7, status := RunStatus.queued, scheduledAt := 50 } ∧
    isTaskRunning (RunTaskNow ⟨[], [], [], []⟩ ⟨7, TaskStatus.active⟩ 50 1 true).2 7 = true :=
  ⟨(C5_runTaskNow_busy_and_idle ⟨[], [], [7], []⟩ ⟨7, TaskStatus.active⟩ 50 1 true).1 rfl,
   ((C5_runTaskNow_busy_and_idle ⟨[], [], [], []⟩ ⟨7, TaskStatus.active⟩ 50 1 true).2 rfl rfl).1,
   ((C5_runTaskNow_busy_and_idle ⟨[], [], [], []⟩ ⟨7, TaskStatus.active⟩ 50 1 true).2 rfl rfl).2.2.2.1⟩

/-- C2: when a scheduled trigger fires for an active task whose ID is in
the running-set (the cron entry still present with fired time p and next
occurrence nx, with the library guaranteeing p < nx, and the store writes
succeeding), exactly one new run row is recorded, created directly in the
terminal status skipped (never queued or running — no execution is
launched and the running-set is untouched) and stamped with the trigger's
scheduled time p; and the task's persisted next_run_at is still advanced
to nx, strictly after the fired time. -/
theorem C2_skip_records_run_and_advances_next (st : SchedState) (taskId : TaskId)
    (task : Task) (p nx now : Int) (newId : RunId)
    (htask : task.id = taskId) (hactive : task.status = TaskStatus.active)
    (hrun : isTaskRunning st taskId = true) (hlt : p < nx) :
    (jobFire st taskId (some (some p, some nx)) now (some task) newId true true).runs =
      st.runs ++ [{ id := newId, taskId := taskId,
                    status := RunStatus.skipped, scheduledAt := p }] ∧
    isRunFinished RunStatus.skipped = true ∧
    nextRunOf (jobFire st taskId (some (some p, some nx)) now (some task) newId true true)
      taskId = some nx ∧
    p < nx ∧
    (jobFire st taskId (some (some p, some nx)) now (some task) newId true true).running =
      st.running ∧
    (jobFire st taskId (some (some p, some nx)) now (some task) newId true true).dispatched =
      st.dispatched := by
  subst htask
  have hmem : task.id ∈ st.running := by simpa [isTaskRunning] using hrun
  refine ⟨?_, rfl, ?_, hlt, ?_, ?_⟩ <;>
    simp [jobFire, handleScheduledTrigger, hactive, hmem, updateTaskNextRun,
      insertRun, nextRunOf, isTaskRunning]

/-- Witness for C2 at a concrete busy task and trigger fire. -/
theorem C2_skip_witness :
    (jobFire ⟨[], [], [7], []⟩ 7 (some (some 10, some 70)) 11 (some ⟨7, TaskStatus.active⟩)
        1 true true).runs =
      [{ id := 1, taskId := 7, status := RunStatus.skipped, scheduledAt := 10 }] ∧
    nextRunOf (jobFire ⟨[], [], [7], []⟩ 7 (some (some 10, some 70)) 11
        (some ⟨7, TaskStatus.active⟩) 1 true true) 7 = some 70 :=
  ⟨by
    have h := (C2_skip_records_run_and_advances_next ⟨[], [], [7], []⟩ 7
      ⟨7, TaskStatus.active⟩ 10 70 11 1 rfl rfl rfl (by omega)).1
    simpa using h,
   (C2_skip_records_run_and_advances_next ⟨[], [], [7], []⟩ 7
      ⟨7, TaskStatus.active⟩ 10 70 11 1 rfl rfl rfl (by omega)).2.2.1⟩

/-- C1: the claim is violated by the code.  The non-reentrancy check
(isTaskRunning, a sync.Map Load), the run insert (a database write) and
the running-set update (markTaskRunning, a sync.Map Store) are three
separate atomic operations with no lock spanning them, so the
scheduled-trigger path and a concurrent RunTaskNow can both pass the
check before either marks the task.  In the concrete interleaving below
— manual check, trigger check, manual insert, manual mark, trigger
insert, trigger mark — both paths complete, two queued (non-terminal)
run rows exist for the same task at once, and two executions are
dispatched concurrently for it.  The intent of the code (its own
comments and its skipped-run log message) is the claim's invariant, so
this is a bug in the code, not in the claim. -/
theorem C1_interleaving_two_nonterminal_runs :
    countNonTerminal (execTrace ⟨7, TaskStatus.active⟩ 100 90 1 2
      [true, false, true, true, false, false]
      ⟨⟨[], [], [], []⟩, ⟨0, false⟩, ⟨0, false⟩⟩).shared.runs 7 = 2 ∧
    (execTrace ⟨7, TaskStatus.active⟩ 100 90 1 2
      [true, false, true, true, false, false]
      ⟨⟨[], [], [], []⟩, ⟨0, false⟩, ⟨0, false⟩⟩).shared.dispatched.length = 2 ∧
    (execTrace ⟨7, TaskStatus.active⟩ 100 90 1 2
      [true, false, true, true, false, false]
      ⟨⟨[], [], [], []⟩, ⟨0, false⟩, ⟨0, false⟩⟩).manual.pc = 3 ∧
    (execTrace ⟨7, TaskStatus.active⟩ 100 90 1 2
      [true, false, true, true, false, false]
      ⟨⟨[], [], [], []⟩, ⟨0, false⟩, ⟨0, false⟩⟩).trigger.pc = 3 := by
  decide

end Clicron
